import Mathlib

/-!
# Verification of the Redditlisten pain-point detection pipeline

A shallow embedding of the core of the `KVA-CASH/Redditlisten` repository:

* `src/src/pain_analyzer.py` — `PainAnalyzer` (context windows, keyword
  location, negative-sentiment filtering, severity ranking);
* `src/src/rss_listener.py` — `SeenPostsTracker` and the neutral-match
  branch of `RSSListener._process_entry`;
* `src/src/listener.py` — the LRU `PostCache`;
* `src/src/storage.py` — the trend-score computation of
  `PostStorage.get_trending_keywords`.

External libraries used by the code (BeautifulSoup, NLTK's tokenizer,
VADER, Python's builtin randomized string `hash`) are modelled as abstract
function parameters of the analyzer; everything written in the repository
itself is translated directly.  Python `str` primitives (`len`, slicing,
`' '.join`, `.lower()`, `.strip()`, substring containment) are modelled by
structurally recursive functions over the character list of a `String`,
and real numbers by `Rat` (VADER compound scores are finite decimals).
-/

namespace Redditlisten

/-! ## Python string primitives -/

/-- Python `len(s)` — number of characters of `s`. -/
def strLen (s : String) : Nat := s.data.length

/-- Python `s[:n]` — the first `n` characters of `s`. -/
def strTake (s : String) (n : Nat) : String := ⟨s.data.take n⟩

/-- Python `s.lower()` (ASCII case folding, which is what the source's
keywords and sentences use). -/
def lowerStr (s : String) : String := ⟨s.data.map Char.toLower⟩

/-- Python `s.strip()` — remove leading and trailing whitespace. -/
def strTrim (s : String) : String :=
  ⟨(((s.data.dropWhile Char.isWhitespace).reverse.dropWhile Char.isWhitespace).reverse)⟩

/-- Python `' '.join(l)`. -/
def joinSpace : List String → String
  | [] => ""
  | [s] => s
  | s :: t :: rest => s ++ " " ++ joinSpace (t :: rest)

/-- A word character in the sense of the regex class `\w` used by
`PainAnalyzer.find_keyword_in_sentences` (ASCII letters, digits and
underscore; the repository's keywords and feed text are ASCII). -/
def isWordChar (c : Char) : Bool := c.isAlphanum || c == '_'

/-- Maximal runs of word characters of a character list, i.e. the words a
`\b…\b`-anchored regex can match in.  `acc` holds the (reversed) current
run. -/
def wordRunsAux : List Char → List Char → List (List Char)
  | acc, [] => if acc.isEmpty then [] else [acc.reverse]
  | acc, c :: cs =>
    if isWordChar c then wordRunsAux (c :: acc) cs
    else (if acc.isEmpty then [] else [acc.reverse]) ++ wordRunsAux [] cs

/-- The maximal word-character runs of a string. -/
def wordRuns (s : String) : List (List Char) := wordRunsAux [] s.data

/-- Semantics of the compiled pattern
`re.compile(rf'\b{re.escape(keyword_lower)}\w*\b', re.IGNORECASE)` searched
in `sentence` (src/src/pain_analyzer.py lines 263-271), for keywords made
of word characters (as all configured keywords are): some maximal word run
of the sentence starts, case-insensitively, with the keyword. -/
def sentenceHasKeyword (sentence keyword : String) : Bool :=
  (wordRuns sentence).any fun w =>
    (keyword.data.map Char.toLower).isPrefixOf (w.map Char.toLower)

/-! ## Constants of `src/src/pain_analyzer.py` -/

/-- `NEGATIVE_THRESHOLD: float = -0.05`. -/
def NEGATIVE_THRESHOLD : Rat := -5/100

/-- `MIN_SNIPPET_LENGTH: int = 20`. -/
def MIN_SNIPPET_LENGTH : Nat := 20

/-- `MAX_SNIPPET_LENGTH: int = 500`. -/
def MAX_SNIPPET_LENGTH : Nat := 500

/-! ## Data classes of `src/src/pain_analyzer.py` -/

/-- The `PainPoint` dataclass. -/
structure PainPoint where
  keyword : String
  context_snippet : String
  pain_score : Rat
  sentence_index : Nat
  full_text : String := ""
deriving DecidableEq, Repr

/-- The `AnalysisResult` dataclass. -/
structure AnalysisResult where
  original_text : String
  clean_text : String
  sentences : List String
  pain_points : List PainPoint := []
  overall_sentiment : Rat := 0
deriving DecidableEq, Repr

/-- The `PainAnalyzer` class.  The fields other than `negative_threshold`
are the external collaborators the class calls into, modelled as abstract
functions:

* `clean_html` — the BeautifulSoup + entity-decoding + regex pipeline of
  `PainAnalyzer.clean_html`;
* `sent_tokenize` — NLTK's `sent_tokenize`;
* `compound` — `self.sentiment_analyzer.polarity_scores(text)['compound']`
  of the VADER `SentimentIntensityAnalyzer` (a pure function of the text);
* `hashStr` — Python's builtin `hash` on strings (fixed within one
  process, hence within one call). -/
structure PainAnalyzer where
  negative_threshold : Rat := NEGATIVE_THRESHOLD
  clean_html : String → String
  sent_tokenize : String → List String
  compound : String → Rat
  hashStr : String → Int

/-- `PainAnalyzer.split_sentences`: tokenize, then
`[s.strip() for s in sentences if len(s.strip()) > 10]`; empty text gives
`[]`. -/
def PainAnalyzer.split_sentences (A : PainAnalyzer) (text : String) : List String :=
  if text = "" then []
  else ((A.sent_tokenize text).map strTrim).filter fun s => strLen s > 10

/-- `PainAnalyzer.is_negative`: `compound_score < self.negative_threshold`. -/
def PainAnalyzer.is_negative (A : PainAnalyzer) (compound_score : Rat) : Bool :=
  compound_score < A.negative_threshold

/-- `PainAnalyzer.get_context_window` (src/src/pain_analyzer.py lines
201-227): `start = max(0, target_index - window_size)` (truncated `Nat`
subtraction), `end = min(len(sentences), target_index + window_size + 1)`,
snippet = `' '.join(sentences[start:end])`, truncated to
`MAX_SNIPPET_LENGTH` characters plus `"..."` when longer. -/
def get_context_window (sentences : List String) (target_index : Nat)
    (window_size : Nat := 1) : String × Nat × Nat :=
  let start := target_index - window_size
  let stop := min sentences.length (target_index + window_size + 1)
  let context := joinSpace ((sentences.drop start).take (stop - start))
  let context :=
    if strLen context > MAX_SNIPPET_LENGTH then strTake context MAX_SNIPPET_LENGTH ++ "..."
    else context
  (context, start, stop)

/-- `PainAnalyzer.find_keyword_in_sentences`: all indices of sentences the
keyword regex matches in. -/
def find_keyword_in_sentences (sentences : List String) (keyword : String) : List Nat :=
  ((sentences.enum.filter fun p => sentenceHasKeyword p.2 keyword).map Prod.fst)

/-- The body of the `for idx in matching_indices` loop of
`PainAnalyzer.extract_pain_points` (lines 326-348).  State: the
`seen_contexts` hash set (as a list, membership only) and the accumulated
`pain_points` list. -/
def PainAnalyzer.processIndex (A : PainAnalyzer) (sentences : List String)
    (full_text : String) (keyword : String)
    (st : List Int × List PainPoint) (idx : Nat) : List Int × List PainPoint :=
  let context := (get_context_window sentences idx).1
  let context_hash := A.hashStr (strTake context 100)
  if context_hash ∈ st.1 then st
  else
    let seen := context_hash :: st.1
    let compound := A.compound context
    if compound < A.negative_threshold then
      (seen, st.2 ++ [⟨keyword, context, compound, idx, full_text⟩])
    else (seen, st.2)

/-- The `for keyword in keywords` loop of `extract_pain_points`
(lines 319-348), starting from an empty `seen_contexts` set and an empty
`pain_points` list. -/
def PainAnalyzer.painPointsLoop (A : PainAnalyzer) (sentences : List String)
    (full_text : String) (keywords : List String) : List Int × List PainPoint :=
  keywords.foldl
    (fun st keyword =>
      (find_keyword_in_sentences sentences keyword).foldl
        (A.processIndex sentences full_text keyword) st)
    ([], [])

/-- `pain_points.sort(key=lambda p: p.pain_score)` — a stable sort of the
pain points by ascending compound score. -/
def sortPainPoints (l : List PainPoint) : List PainPoint :=
  l.mergeSort fun p q => decide (p.pain_score ≤ q.pain_score)

/-- `PainAnalyzer.extract_pain_points` (lines 275-363).  The Python guard
`if not clean_text or len(clean_text) < MIN_SNIPPET_LENGTH` is equivalent
to `len(clean_text) < MIN_SNIPPET_LENGTH` since the empty string has
length `0 < 20`. -/
def PainAnalyzer.extract_pain_points (A : PainAnalyzer) (text : String)
    (keywords : List String) : AnalysisResult :=
  let clean_text := A.clean_html text
  if strLen clean_text < MIN_SNIPPET_LENGTH then
    { original_text := text, clean_text := clean_text, sentences := []
      pain_points := [], overall_sentiment := 0 }
  else
    let sentences := A.split_sentences clean_text
    if sentences = [] then
      { original_text := text, clean_text := clean_text, sentences := []
        pain_points := [], overall_sentiment := 0 }
    else
      let overall_sentiment := A.compound clean_text
      let pain_points := sortPainPoints (A.painPointsLoop sentences clean_text keywords).2
      { original_text := text, clean_text := clean_text, sentences := sentences
        pain_points := pain_points, overall_sentiment := overall_sentiment }

/-- `f"{title}. {content}" if content else title` from
`PainAnalyzer.analyze_post`. -/
def combinePost (title content : String) : String :=
  if content ≠ "" then title ++ ". " ++ content else title

/-- `PainAnalyzer.analyze_post` (lines 365-385). -/
def PainAnalyzer.analyze_post (A : PainAnalyzer) (title content : String)
    (keywords : List String) : AnalysisResult :=
  A.extract_pain_points (combinePost title content) keywords

/-! ## `SeenPostsTracker` of `src/src/rss_listener.py`

The tracker's state is a Python `set` of post ids.  A `set` enumerates its
elements in an arbitrary, implementation-defined order (CPython randomizes
string hashing per process), and `mark_seen` materializes that order with
`list(self._seen)` when trimming.  The model therefore keeps the set's
contents *in its current iteration order* and lets each `mark_seen` call
take the iteration order of the set-after-add as an explicit input; a call
is faithful to CPython exactly when that order enumerates each element of
the set once (`validEnum`). -/

structure SeenPostsTracker where
  max_size : Nat
  /-- Contents of the `self._seen` set, in its iteration order. -/
  seen : List String
deriving Repr

/-- A fresh tracker (no persisted file). -/
def SeenPostsTracker.empty (max_size : Nat) : SeenPostsTracker := ⟨max_size, []⟩

/-- `SeenPostsTracker.is_seen`: `post_id in self._seen`. -/
def SeenPostsTracker.is_seen (t : SeenPostsTracker) (post_id : String) : Bool :=
  t.seen.contains post_id

/-- `SeenPostsTracker.count`: `len(self._seen)`. -/
def SeenPostsTracker.count (t : SeenPostsTracker) : Nat := t.seen.length

/-- The contents of the set after `self._seen.add(post_id)` (in one
possible order; only its multiset of elements is meaningful). -/
def SeenPostsTracker.setAfterAdd (t : SeenPostsTracker) (post_id : String) : List String :=
  if t.seen.contains post_id then t.seen else post_id :: t.seen

/-- `order` is a legitimate CPython iteration order of the set after the
add: it enumerates exactly the elements of the set, each once. -/
def SeenPostsTracker.validEnum (t : SeenPostsTracker) (post_id : String)
    (order : List String) : Prop :=
  order.Perm (t.setAfterAdd post_id)

instance (t : SeenPostsTracker) (post_id : String) (order : List String) :
    Decidable (t.validEnum post_id order) :=
  inferInstanceAs (Decidable (order.Perm (t.setAfterAdd post_id)))

/-- `SeenPostsTracker.mark_seen` (src/src/rss_listener.py lines 124-133):
`self._seen.add(post_id)`; then if `len(self._seen) > self.max_size`,
`excess = len - max_size; self._seen = set(list(self._seen)[excess:])`.
`order` is the iteration order of the set after the add. -/
def SeenPostsTracker.mark_seen (t : SeenPostsTracker) (post_id : String)
    (order : List String) : SeenPostsTracker :=
  if order.length > t.max_size then
    { t with seen := order.drop (order.length - t.max_size) }
  else
    { t with seen := order }

/-! ## `PostCache` of `src/src/listener.py`

The `OrderedDict[str, float]` is modelled as a list of (post id, seen
time) pairs, front = least recently inserted/touched (the order
`popitem(last=False)` pops from).  Times are integers (seconds). -/

structure PostCache where
  /-- The `OrderedDict` contents, oldest first. -/
  cache : List (String × Int) := []
  max_size : Nat
  cooldown : Int
deriving Repr

/-- `while len(self._cache) > self._max_size: self._cache.popitem(last=False)`. -/
def evictOverflow (max_size : Nat) : List (String × Int) → List (String × Int)
  | [] => []
  | e :: rest => if rest.length + 1 > max_size then evictOverflow max_size rest else e :: rest

/-- `PostCache.size`: `len(self._cache)`. -/
def PostCache.size (c : PostCache) : Nat := c.cache.length

/-- `PostCache.is_seen` (src/src/listener.py lines 75-86): a lookup at
time `now`; expired entries are deleted, so the (possibly updated) cache
is returned alongside the answer. -/
def PostCache.is_seen (c : PostCache) (post_id : String) (now : Int) : Bool × PostCache :=
  match c.cache.find? (fun e => e.1 == post_id) with
  | none => (false, c)
  | some e =>
    if now - e.2 > c.cooldown then
      (false, { c with cache := c.cache.eraseP fun x => x.1 == post_id })
    else (true, c)

/-- `PostCache.mark_seen` (src/src/listener.py lines 88-98) at time `now`:
`move_to_end` for an existing key followed by `self._cache[post_id] =
time.time()` amounts to erasing the key's entry and appending
`(post_id, now)`; for a fresh key the assignment appends it.  Then evict
from the front while over capacity. -/
def PostCache.mark_seen (c : PostCache) (post_id : String) (now : Int) : PostCache :=
  let cache :=
    if c.cache.any (fun e => e.1 == post_id) then
      (c.cache.eraseP fun e => e.1 == post_id) ++ [(post_id, now)]
    else
      c.cache ++ [(post_id, now)]
  { c with cache := evictOverflow c.max_size cache }

/-! ## Trend scoring of `PostStorage.get_trending_keywords`
(`src/src/storage.py` lines 265-289) -/

/-- The per-keyword trend score computed by `get_trending_keywords`:
`baseline_period = baseline_days - recent_days`;
`baseline_avg = baseline_count / baseline_period if baseline_period > 0 else 0`;
`recent_avg = recent_count / recent_days`;
`recent_avg / baseline_avg` if `baseline_avg > 0` else `recent_avg * 10`. -/
def trend_score (recent_count recent_days baseline_count baseline_days : Nat) : Rat :=
  let baseline_period : Int := (baseline_days : Int) - (recent_days : Int)
  let baseline_avg : Rat :=
    if baseline_period > 0 then (baseline_count : Rat) / (baseline_period : Rat) else 0
  let recent_avg : Rat := (recent_count : Rat) / (recent_days : Rat)
  if baseline_avg > 0 then recent_avg / baseline_avg else recent_avg * 10

/-- Modelled from the spec (§4.8 TrendScorer): "`recent_avg = recent_count
/ recent_days`; `baseline_period = baseline_days - recent_days`;
`baseline_avg = baseline_count / baseline_period` if `baseline_period > 0`
else 0; `score = recent_avg / baseline_avg` if `baseline_avg > 0` else
`recent_avg * 10`". -/
def trendSpec (recent_count recent_days baseline_count baseline_days : Nat) : Rat :=
  let recent_avg : Rat := (recent_count : Rat) / (recent_days : Rat)
  let baseline_period : Int := (baseline_days : Int) - (recent_days : Int)
  let baseline_avg : Rat :=
    if baseline_period > 0 then (baseline_count : Rat) / (baseline_period : Rat) else 0
  if baseline_avg > 0 then recent_avg / baseline_avg else recent_avg * 10

/-! ## The neutral-match branch of `RSSListener._process_entry`
(`src/src/rss_listener.py` lines 377-401) -/

/-- Whether the neutral callback fires for a new, fresh, keyword
pre-filtered entry whose analysis is `result`, with `on_neutral_match`
configured: when no pain points were produced, the code re-scans the
sentences with `keywords[0] if keywords else ""` — only the FIRST
configured keyword — and fires when that scan hits or the overall
sentiment is non-zero. -/
def neutralCallbackFires (keywords : List String) (result : AnalysisResult) : Bool :=
  if result.pain_points.isEmpty then
    !(find_keyword_in_sentences result.sentences (keywords.headD "")).isEmpty
      || decide (result.overall_sentiment ≠ 0)
  else false

/-- Modelled from the spec (§4.7 PollingScheduler): "… else emit via the
neutral callback when overall sentiment is non-zero or any raw keyword
occurrence exists" — i.e. the scan considers every configured keyword. -/
def neutralCallbackFiresSpec (keywords : List String) (result : AnalysisResult) : Bool :=
  if result.pain_points.isEmpty then
    (keywords.any fun kw => !(find_keyword_in_sentences result.sentences kw).isEmpty)
      || decide (result.overall_sentiment ≠ 0)
  else false

/-! ## Helper lemmas -/

theorem evictOverflow_length_le (max_size : Nat) :
    ∀ l : List (String × Int), (evictOverflow max_size l).length ≤ max_size := by
  intro l
  induction l with
  | nil => simp [evictOverflow]
  | cons e rest ih =>
    unfold evictOverflow
    split
    · exact ih
    · simp only [List.length_cons]
      omega

/-! ## Claim theorems -/

/-- **C3.** For every sentence list and every index `idx < len(sentences)`,
`get_context_window(sentences, idx, radius)` returns `(snippet, start, end)`
with `start = max(0, idx - radius)` and
`end = min(len(sentences), idx + radius + 1)`, so
`0 ≤ start ≤ idx ≤ end ≤ len(sentences)` (the `start ≥ 0` bound is the
`Nat` type); the snippet is `sentences[start:end]` joined with a single
space, truncated to 500 characters plus a trailing ellipsis marker when
the joined text exceeds 500 characters. -/
theorem get_context_window_spec (sentences : List String) (idx radius : Nat)
    (h : idx < sentences.length) :
    ((get_context_window sentences idx radius).2.1 : Int)
        = max 0 ((idx : Int) - (radius : Int)) ∧
    (get_context_window sentences idx radius).2.2
        = min sentences.length (idx + radius + 1) ∧
    (get_context_window sentences idx radius).2.1 ≤ idx ∧
    idx ≤ (get_context_window sentences idx radius).2.2 ∧
    (get_context_window sentences idx radius).2.2 ≤ sentences.length ∧
    (get_context_window sentences idx radius).1 =
      (let joined := joinSpace (((sentences.drop ((get_context_window sentences idx radius).2.1)).take
          ((get_context_window sentences idx radius).2.2 - (get_context_window sentences idx radius).2.1)));
       if strLen joined > 500 then strTake joined 500 ++ "..." else joined) := by
  refine ⟨?_, ?_, ?_, ?_, ?_, ?_⟩ <;>
    simp only [get_context_window, MAX_SNIPPET_LENGTH] <;> omega

/-- Witness for C3 at `sentences = ["alpha","beta","gamma"]`, `idx = 1`,
`radius = 1`. -/
theorem get_context_window_spec_witness :
    (1 < (["alpha", "beta", "gamma"] : List String).length) ∧
    (((get_context_window ["alpha", "beta", "gamma"] 1 1).2.1 : Int)
        = max 0 ((1 : Int) - (1 : Int)) ∧
    (get_context_window ["alpha", "beta", "gamma"] 1 1).2.2
        = min (["alpha", "beta", "gamma"] : List String).length (1 + 1 + 1) ∧
    (get_context_window ["alpha", "beta", "gamma"] 1 1).2.1 ≤ 1 ∧
    1 ≤ (get_context_window ["alpha", "beta", "gamma"] 1 1).2.2 ∧
    (get_context_window ["alpha", "beta", "gamma"] 1 1).2.2
        ≤ (["alpha", "beta", "gamma"] : List String).length ∧
    (get_context_window ["alpha", "beta", "gamma"] 1 1).1 =
      (let joined := joinSpace ((((["alpha", "beta", "gamma"] : List String).drop
          ((get_context_window ["alpha", "beta", "gamma"] 1 1).2.1)).take
          ((get_context_window ["alpha", "beta", "gamma"] 1 1).2.2
            - (get_context_window ["alpha", "beta", "gamma"] 1 1).2.1)));
       if strLen joined > 500 then strTake joined 500 ++ "..." else joined)) :=
  ⟨by decide, get_context_window_spec ["alpha", "beta", "gamma"] 1 1 (by decide)⟩

/-- **C4.** Both deduplication structures respect their capacity bound
after every `mark_seen` call (hence, in particular, after every call of
any sequence starting from an empty tracker): the set-based
`SeenPostsTracker` trims to `max_size` whatever the set's iteration order
is, and the LRU `PostCache` evicts from the front until it holds at most
`max_size` entries. -/
theorem mark_seen_capacity_bound :
    (∀ (t : SeenPostsTracker) (post_id : String) (order : List String),
        (t.mark_seen post_id order).count ≤ t.max_size) ∧
    (∀ (c : PostCache) (post_id : String) (now : Int),
        (c.mark_seen post_id now).size ≤ c.max_size) := by
  constructor
  · intro t post_id order
    unfold SeenPostsTracker.mark_seen SeenPostsTracker.count
    split
    · simp only [List.length_drop]
      omega
    · show order.length ≤ t.max_size
      omega
  · intro c post_id now
    unfold PostCache.mark_seen PostCache.size
    exact evictOverflow_length_le c.max_size _

/-- **C7.** The trend score of `get_trending_keywords` matches the spec's
formula (for a positive recent window, as the code always uses), and
scenario D evaluates to `60/7 ≈ 8.57`. -/
theorem trend_score_spec (recent_count recent_days baseline_count baseline_days : Nat)
    (h : 0 < recent_days) :
    trend_score recent_count recent_days baseline_count baseline_days
      = trendSpec recent_count recent_days baseline_count baseline_days ∧
    trend_score 10 1 7 7 = 60 / 7 ∧
    |(60 : Rat) / 7 - 857 / 100| < 1 / 100 := by
  refine ⟨rfl, ?_, ?_⟩
  · show (if ((7:Int) - 1 > 0) then
        (if ((7:Rat)/((7:Int)-(1:Int) : Int) > 0) then ((10:Rat)/1) / ((7:Rat)/((7:Int)-(1:Int) : Int)) else (10:Rat)/1 * 10)
      else (if ((0:Rat) > 0) then ((10:Rat)/1) / 0 else (10:Rat)/1 * 10)) = 60 / 7
    norm_num
  · rw [abs_lt]
    constructor <;> norm_num

/-- Witness for C7 at scenario D (`recent_count = 10`, `recent_days = 1`,
`baseline_count = 7`, `baseline_days = 7`). -/
theorem trend_score_spec_witness :
    0 < 1 ∧
    (trend_score 10 1 7 7 = trendSpec 10 1 7 7 ∧
     trend_score 10 1 7 7 = 60 / 7 ∧
     |(60 : Rat) / 7 - 857 / 100| < 1 / 100) :=
  ⟨by decide, trend_score_spec 10 1 7 7 (by decide)⟩

/-- **C8.** `analyze_post` is a total function of its inputs (it is
modelled as a Lean `def`, so it returns for every title/body), and when
the cleaned combined text is shorter than 20 characters (which includes
the empty text) it returns a result with no sentences, no pain points and
overall sentiment `0`. -/
theorem analyze_post_short_text_empty_result (A : PainAnalyzer)
    (title content : String) (keywords : List String)
    (h : strLen (A.clean_html (combinePost title content)) < MIN_SNIPPET_LENGTH) :
    (A.analyze_post title content keywords).sentences = [] ∧
    (A.analyze_post title content keywords).pain_points = [] ∧
    (A.analyze_post title content keywords).overall_sentiment = 0 := by
  unfold PainAnalyzer.analyze_post PainAnalyzer.extract_pain_points
  rw [if_pos h]
  exact ⟨rfl, rfl, rfl⟩

/-- A concrete instantiation of the analyzer's external collaborators,
used to exercise the pipeline on closed inputs: identity HTML cleaner,
whole-text tokenizer, constant VADER compound `-1`, constant hash, and a
configured threshold of `0`. -/
def demoAnalyzer : PainAnalyzer where
  negative_threshold := 0
  clean_html := id
  sent_tokenize := fun t => [t]
  compound := fun _ => -1
  hashStr := fun _ => 0

/-- Witness for C8 at empty title and empty body. -/
theorem analyze_post_short_text_empty_result_witness :
    strLen (demoAnalyzer.clean_html (combinePost "" "")) < MIN_SNIPPET_LENGTH ∧
    ((demoAnalyzer.analyze_post "" "" []).sentences = [] ∧
     (demoAnalyzer.analyze_post "" "" []).pain_points = [] ∧
     (demoAnalyzer.analyze_post "" "" []).overall_sentiment = 0) :=
  ⟨by decide, analyze_post_short_text_empty_result demoAnalyzer "" "" [] (by decide)⟩

/-- An analysis result with one sentence containing the second configured
keyword (`"pain"`), no pain points and a zero overall sentiment. -/
def c6Result : AnalysisResult where
  original_text := "I use the pain tool."
  clean_text := "I use the pain tool."
  sentences := ["I use the pain tool."]
  pain_points := []
  overall_sentiment := 0

/-- **C6.** The claim fails on the code: for a fresh item with keywords
`["zzz", "pain"]` whose single sentence contains `"pain"` but not
`"zzz"`, no pain points and zero overall sentiment, the code does **not**
fire the neutral callback (it re-scans with `keywords[0]` only), while
the behaviour the claim describes — scan with *any* configured keyword —
does fire it.  (Spec §9 flags the first-keyword narrowing as an
unintentional bug of the source.) -/
theorem neutral_callback_checks_only_first_keyword :
    neutralCallbackFires ["zzz", "pain"] c6Result = false ∧
    neutralCallbackFiresSpec ["zzz", "pain"] c6Result = true := by
  constructor <;> decide

/-- Tracker state after `mark_seen("a")` on an empty tracker with
`max_size = 3` (singleton sets enumerate uniquely). -/
def c5t1 : SeenPostsTracker := (SeenPostsTracker.empty 3).mark_seen "a" ["a"]

/-- … after `mark_seen("b")`, set iteration order `["a", "b"]`. -/
def c5t2 : SeenPostsTracker := c5t1.mark_seen "b" ["a", "b"]

/-- … after `mark_seen("c")`, set iteration order `["a", "b", "c"]`. -/
def c5t3 : SeenPostsTracker := c5t2.mark_seen "c" ["a", "b", "c"]

/-- … after `mark_seen("d")`, where the set `{a,b,c,d}` happens to
enumerate as `["d", "b", "c", "a"]` (CPython string hashing is randomized,
so any enumeration order can occur). -/
def c5t4 : SeenPostsTracker := c5t3.mark_seen "d" ["d", "b", "c", "a"]

/-- The LRU cache of `src/src/listener.py` after the same four ids
(`max_size = 3`, `cooldown = 3600`, times 0..3). -/
def c5cache : PostCache :=
  ((((PostCache.mk [] 3 3600).mark_seen "a" 0).mark_seen "b" 1).mark_seen
    "c" 2).mark_seen "d" 3

/-- **C5.** The claim fails on the set-based `SeenPostsTracker`: each
enumeration used above is a legitimate iteration order of the Python set
(certified by `validEnum`), yet after marking `a, b, c, d` with
`max_size = 3` the tracker still contains `"a"` and has evicted `"d"` —
the code drops the first `excess` entries of the set's *arbitrary*
iteration order, not the oldest ones.  The LRU `PostCache`, in contrast,
behaves exactly as the claim states: after the same sequence `"a"` is out,
`"d"` is in, and the size is 3. -/
theorem seen_tracker_eviction_not_oldest :
    ((SeenPostsTracker.empty 3).validEnum "a" ["a"] ∧
     c5t1.validEnum "b" ["a", "b"] ∧
     c5t2.validEnum "c" ["a", "b", "c"] ∧
     c5t3.validEnum "d" ["d", "b", "c", "a"]) ∧
    (c5t4.count = 3 ∧ c5t4.is_seen "a" = true ∧ c5t4.is_seen "d" = false) ∧
    (c5cache.size = 3 ∧ (c5cache.is_seen "a" 3).1 = false ∧
      (c5cache.is_seen "d" 3).1 = true) := by
  refine ⟨⟨?_, ?_, ?_, ?_⟩, ?_, ?_⟩ <;> decide

/-! ### Lemmas for the LRU cache (C10) -/

theorem mem_evictOverflow_appended (max_size : Nat) (hm : 1 ≤ max_size)
    (a : String × Int) :
    ∀ l : List (String × Int), a ∈ evictOverflow max_size (l ++ [a]) := by
  intro l
  induction l with
  | nil =>
    simp only [List.nil_append]
    unfold evictOverflow
    rw [if_neg (by simp only [List.length_nil]; omega)]
    exact List.mem_singleton.mpr rfl
  | cons x xs ih =>
    simp only [List.cons_append]
    unfold evictOverflow
    split
    · exact ih
    · exact List.mem_cons_of_mem x (List.mem_append_right xs (List.mem_singleton.mpr rfl))

theorem mem_of_mem_evictOverflow (max_size : Nat) :
    ∀ l : List (String × Int), ∀ e ∈ evictOverflow max_size l, e ∈ l := by
  intro l
  induction l with
  | nil => simp [evictOverflow]
  | cons x xs ih =>
    intro e he
    unfold evictOverflow at he
    split at he
    · exact List.mem_cons_of_mem x (ih e he)
    · exact he

theorem eraseP_key_eliminated (post_id : String) :
    ∀ l : List (String × Int), (l.map Prod.fst).Nodup →
      ∀ e ∈ l.eraseP (fun x => x.1 == post_id), e.1 ≠ post_id := by
  intro l
  induction l with
  | nil => simp
  | cons x xs ih =>
    intro hnd e he
    rw [List.eraseP_cons] at he
    rw [List.map_cons, List.nodup_cons] at hnd
    cases hx : (x.1 == post_id) with
    | true =>
      rw [hx, cond_true] at he
      intro hep
      exact hnd.1 (by
        rw [beq_iff_eq] at hx
        rw [hx, ← hep]
        exact List.mem_map_of_mem Prod.fst he)
    | false =>
      rw [hx, cond_false] at he
      rcases List.mem_cons.mp he with h | h
      · rw [h]
        simpa using hx
      · exact ih hnd.2 e h

/-- **C10.** For the LRU `PostCache` with `max_size ≥ 1` and
`cooldown > 0` (and a well-formed cache: dictionary keys are unique),
immediately after `mark_seen(post_id)` at time `now`, `is_seen(post_id)`
at the same time returns `True`: insertion places the id at the
most-recently-used end and overflow eviction removes only from the
least-recently-used front, so the just-marked id is never evicted. -/
theorem lru_mark_seen_then_is_seen (c : PostCache) (post_id : String) (now : Int)
    (hm : 1 ≤ c.max_size) (hcd : 0 < c.cooldown)
    (hnd : (c.cache.map Prod.fst).Nodup) :
    ((c.mark_seen post_id now).is_seen post_id now).1 = true := by
  unfold PostCache.mark_seen
  set l' : List (String × Int) :=
    (if c.cache.any (fun e => e.1 == post_id) then
      c.cache.eraseP (fun e => e.1 == post_id) else c.cache) with hl'
  have hkeys : ∀ e ∈ l', e.1 ≠ post_id := by
    rw [hl']
    split
    · exact eraseP_key_eliminated post_id c.cache hnd
    · intro e he hep
      rename_i hany
      rw [List.any_eq_true] at hany
      exact hany ⟨e, he, by rw [beq_iff_eq]; exact hep⟩
  have hbase :
      (if c.cache.any (fun e => e.1 == post_id) then
          (c.cache.eraseP fun e => e.1 == post_id) ++ [(post_id, now)]
        else c.cache ++ [(post_id, now)]) = l' ++ [(post_id, now)] := by
    rw [hl']
    split <;> rfl
  rw [hbase]
  set res := evictOverflow c.max_size (l' ++ [(post_id, now)]) with hres
  have hmem : (post_id, now) ∈ res := mem_evictOverflow_appended c.max_size hm _ l'
  have hfind : res.find? (fun e => e.1 == post_id) = some (post_id, now) := by
    have hsome : (res.find? fun e => e.1 == post_id).isSome := by
      rw [List.find?_isSome]
      exact ⟨(post_id, now), hmem, by simp⟩
    obtain ⟨x, hx⟩ := Option.isSome_iff_exists.mp hsome
    have hxp : (x.1 == post_id) = true := by simpa using List.find?_some hx
    have hxmem : x ∈ l' ++ [(post_id, now)] :=
      mem_of_mem_evictOverflow c.max_size _ x (List.mem_of_find?_eq_some hx)
    rcases List.mem_append.mp hxmem with h | h
    · exact absurd (beq_iff_eq.mp hxp) (hkeys x h)
    · rw [hx, List.mem_singleton.mp h]
  show ((⟨res, c.max_size, c.cooldown⟩ : PostCache).is_seen post_id now).1 = true
  unfold PostCache.is_seen
  rw [hfind]
  simp only
  rw [if_neg (by omega)]

/-- Witness for C10: an empty cache with `max_size = 10`,
`cooldown = 3600`, marking `"x1"` at time 5. -/
theorem lru_mark_seen_then_is_seen_witness :
    (1 ≤ (PostCache.mk [] 10 3600).max_size ∧
     0 < (PostCache.mk [] 10 3600).cooldown ∧
     ((PostCache.mk [] 10 3600).cache.map Prod.fst).Nodup) ∧
    (((PostCache.mk [] 10 3600).mark_seen "x1" 5).is_seen "x1" 5).1 = true :=
  ⟨⟨by decide, by decide, by decide⟩,
    lru_mark_seen_then_is_seen (PostCache.mk [] 10 3600) "x1" 5 (by decide)
      (by decide) (by decide)⟩

/-! ### Lemmas for the extraction loop (C1, C2, C9) -/

/-- Every pain point the body of the extraction loop accumulates scored
strictly below the threshold. -/
theorem processIndex_scores (A : PainAnalyzer) (sentences : List String)
    (full_text keyword : String) (st : List Int × List PainPoint) (idx : Nat)
    (h : ∀ p ∈ st.2, p.pain_score < A.negative_threshold) :
    ∀ p ∈ (A.processIndex sentences full_text keyword st idx).2,
      p.pain_score < A.negative_threshold := by
  intro p hp
  simp only [PainAnalyzer.processIndex] at hp
  split at hp
  · exact h p hp
  · split at hp
    · rcases List.mem_append.mp hp with hmem | hmem
      · exact h p hmem
      · rw [List.mem_singleton.mp hmem]
        assumption
    · exact h p hp

/-- The score invariant of the extraction loop's state. -/
def ScoresInv (A : PainAnalyzer) (st : List Int × List PainPoint) : Prop :=
  ∀ p ∈ st.2, p.pain_score < A.negative_threshold

theorem painPointsLoop_scores (A : PainAnalyzer) (sentences : List String)
    (full_text : String) (keywords : List String) :
    ScoresInv A (A.painPointsLoop sentences full_text keywords) := by
  unfold PainAnalyzer.painPointsLoop
  refine List.foldlRecOn keywords _ (([], []) : List Int × List PainPoint) ?_ ?_
  · exact fun p hp => absurd hp (List.not_mem_nil p)
  intro st hst keyword _
  refine List.foldlRecOn _ _ st hst ?_
  intro st' hst' idx _
  exact processIndex_scores A sentences full_text keyword st' idx hst'

theorem mem_sortPainPoints {p : PainPoint} {l : List PainPoint} :
    p ∈ sortPainPoints l ↔ p ∈ l := by
  unfold sortPainPoints
  exact List.mem_mergeSort

theorem extract_pain_points_scores (A : PainAnalyzer) (text : String)
    (keywords : List String) :
    ∀ p ∈ (A.extract_pain_points text keywords).pain_points,
      p.pain_score < A.negative_threshold := by
  intro p hp
  simp only [PainAnalyzer.extract_pain_points] at hp
  split at hp
  · simp at hp
  · split at hp
    · simp at hp
    · exact painPointsLoop_scores A _ _ keywords p (mem_sortPainPoints.mp hp)


/-- **C1.** Every `PainPoint` returned by `extract_pain_points` (and hence
by `analyze_post`) has `pain_score` strictly below the analyzer's
configured `negative_threshold`: the loop only constructs a point after
`is_negative` holds for its context's compound score, and sorting only
permutes the list. -/
theorem pain_points_strictly_below_threshold (A : PainAnalyzer)
    (text title content : String) (keywords : List String) (p : PainPoint)
    (h : p ∈ (A.extract_pain_points text keywords).pain_points ∨
         p ∈ (A.analyze_post title content keywords).pain_points) :
    p.pain_score < A.negative_threshold := by
  rcases h with h | h
  · exact extract_pain_points_scores A text keywords p h
  · exact extract_pain_points_scores A (combinePost title content) keywords p h

/-- The single-sentence demonstration text (28 characters, above the
20-character minimum). -/
def demoText : String := "this is a pain for the team."

/-- The pain point `demoAnalyzer` extracts from `demoText` for the
keyword `"pain"`. -/
def demoPain : PainPoint where
  keyword := "pain"
  context_snippet := demoText
  pain_score := -1
  sentence_index := 0
  full_text := demoText

theorem demoPain_mem :
    demoPain ∈ (demoAnalyzer.extract_pain_points demoText ["pain"]).pain_points := by
  show demoPain ∈ sortPainPoints
    (demoAnalyzer.painPointsLoop (demoAnalyzer.split_sentences (demoAnalyzer.clean_html demoText))
      (demoAnalyzer.clean_html demoText) ["pain"]).2
  rw [mem_sortPainPoints]
  decide

/-- Witness for C1 at `demoAnalyzer`, `demoText`, keyword `"pain"`. -/
theorem pain_points_strictly_below_threshold_witness :
    (demoPain ∈ (demoAnalyzer.extract_pain_points demoText ["pain"]).pain_points ∨
     demoPain ∈ (demoAnalyzer.analyze_post "t" "c" ["pain"]).pain_points) ∧
    demoPain.pain_score < demoAnalyzer.negative_threshold :=
  ⟨Or.inl demoPain_mem,
    pain_points_strictly_below_threshold demoAnalyzer demoText "t" "c" ["pain"]
      demoPain (Or.inl demoPain_mem)⟩

theorem sortPainPoints_sorted (l : List PainPoint) :
    (sortPainPoints l).Pairwise fun p q => p.pain_score ≤ q.pain_score := by
  unfold sortPainPoints
  refine List.Pairwise.imp ?_ (List.sorted_mergeSort ?_ ?_ l)
  · exact fun hpq => of_decide_eq_true hpq
  · exact fun a b c hab hbc =>
      decide_eq_true (le_trans (of_decide_eq_true hab) (of_decide_eq_true hbc))
  · intro a b
    rcases le_total a.pain_score b.pain_score with hle | hle <;> simp [hle]

/-- **C2.** The `pain_points` list of every `AnalysisResult` returned by
`extract_pain_points` is sorted ascending by `pain_score` (most negative
first); in particular every pair of adjacent elements satisfies
`p_i.pain_score ≤ p_{i+1}.pain_score`. -/
theorem pain_points_sorted_ascending (A : PainAnalyzer) (text : String)
    (keywords : List String) :
    (A.extract_pain_points text keywords).pain_points.Pairwise
      fun p q => p.pain_score ≤ q.pain_score := by
  simp only [PainAnalyzer.extract_pain_points]
  split
  · simp
  · split
    · simp
    · exact sortPainPoints_sorted _

/-- The invariant the extraction loop maintains between `seen_contexts`
and `pain_points`: every accumulated point's leading-substring hash is in
the seen set, and those hashes are pairwise distinct. -/
def HashSetInv (A : PainAnalyzer) (st : List Int × List PainPoint) : Prop :=
  (∀ p ∈ st.2, A.hashStr (strTake p.context_snippet 100) ∈ st.1) ∧
  st.2.Pairwise fun p q =>
    A.hashStr (strTake p.context_snippet 100) ≠ A.hashStr (strTake q.context_snippet 100)

theorem processIndex_hashInv (A : PainAnalyzer) (sentences : List String)
    (full_text keyword : String) (st : List Int × List PainPoint) (idx : Nat)
    (h : HashSetInv A st) :
    HashSetInv A (A.processIndex sentences full_text keyword st idx) := by
  obtain ⟨h1, h2⟩ := h
  simp only [PainAnalyzer.processIndex]
  split
  · exact ⟨h1, h2⟩
  · rename_i hnotin
    split
    · constructor
      · intro p hp
        rcases List.mem_append.mp hp with hmem | hmem
        · exact List.mem_cons_of_mem _ (h1 p hmem)
        · rw [List.mem_singleton.mp hmem]
          exact List.mem_cons_self _ _
      · rw [List.pairwise_append]
        refine ⟨h2, List.pairwise_singleton _ _, ?_⟩
        intro p hp q hq
        rw [List.mem_singleton.mp hq]
        intro heq
        exact hnotin (heq ▸ h1 p hp)
    · exact ⟨fun p hp => List.mem_cons_of_mem _ (h1 p hp), h2⟩

theorem painPointsLoop_hashInv (A : PainAnalyzer) (sentences : List String)
    (full_text : String) (keywords : List String) :
    HashSetInv A (A.painPointsLoop sentences full_text keywords) := by
  unfold PainAnalyzer.painPointsLoop
  refine List.foldlRecOn keywords _ (([], []) : List Int × List PainPoint)
    ⟨by simp, List.Pairwise.nil⟩ ?_
  intro st hst keyword _
  refine List.foldlRecOn _ _ st hst ?_
  intro st' hst' idx _
  exact processIndex_hashInv A sentences full_text keyword st' idx hst'

/-- **C9.** Within one `extract_pain_points` call, no two returned
`PainPoint`s have context snippets whose leading 100-character substrings
hash to the same value: the `seen_contexts` set suppresses any context
window whose leading-substring hash was already processed, and sorting
only permutes the list. -/
theorem pain_point_context_hashes_distinct (A : PainAnalyzer) (text : String)
    (keywords : List String) :
    (A.extract_pain_points text keywords).pain_points.Pairwise
      fun p q =>
        A.hashStr (strTake p.context_snippet 100)
          ≠ A.hashStr (strTake q.context_snippet 100) := by
  simp only [PainAnalyzer.extract_pain_points]
  split
  · simp
  · split
    · simp
    · have hperm : List.Perm
          (sortPainPoints
            (A.painPointsLoop (A.split_sentences (A.clean_html text))
              (A.clean_html text) keywords).2)
          (A.painPointsLoop (A.split_sentences (A.clean_html text))
            (A.clean_html text) keywords).2 :=
        List.mergeSort_perm _ _
      exact (List.Perm.pairwise_iff (fun hab => Ne.symm hab) hperm).mpr
        (painPointsLoop_hashInv A (A.split_sentences (A.clean_html text))
          (A.clean_html text) keywords).2

end Redditlisten
